import Mathlib

/-!
Verification development for the hls.js fork: shallow embedding of the
fragment finders, the network retry engine, the playlist/key loading
handlers, the media fragment receiver gap handling, and the decryption
data derivation, together with theorems settling the specification
claims. JavaScript numbers are modelled as rationals (the claims are
about exact arithmetic, not floating point); JS null is modelled with
Option.
-/

namespace HlsSpec

/-- Coercion a JS comparison applies to a possibly-null number: null
compares as 0. Used where the source compares against a field that can
be null (for example programDateTime). -/
def jsToNumber : Option ℚ → ℚ
  | none => 0
  | some q => q

/-- The fields of src/m3u8/media-fragment.ts MediaFragment that the
fragment finders in src/m3u8/fragment-finders.ts read. deltaPTS models
the numeric value of the JS field, with undefined collapsed to 0: the
source guards every read with a truthiness test that maps undefined and
0 both to 0, so the collapse is exact. programDateTime is none for
null. -/
structure MediaFragment where
  sn : ℤ
  start : ℚ
  duration : ℚ
  deltaPTS : ℚ
  programDateTime : Option ℚ
deriving Repr, DecidableEq

/-- Getter endProgramDateTime of media-fragment.ts: null when
programDateTime is not a finite number, otherwise
programDateTime + duration * 1000 (duration is always finite in the
model, matching its guard in the source). -/
def MediaFragment.endProgramDateTime (f : MediaFragment) : Option ℚ :=
  f.programDateTime.map fun p => p + f.duration * 1000

/-- compareFragmentWithTolerance of src/m3u8/fragment-finders.ts: the
three-way comparator used by findFragmentByPTS. The candidate lookup
tolerance is min(maxFragLookUpTolerance, duration + deltaPTS); the
candidate is classified 1 (too early) when
start + duration - tolerance <= bufferEnd, -1 (too late) when
start - tolerance > bufferEnd and start is nonzero, else 0 (match). -/
def compareFragmentWithTolerance (candidate : MediaFragment)
    (bufferEnd : ℚ) (maxFragLookUpTolerance : ℚ) : ℤ :=
  let candidateLookupTolerance :=
    min maxFragLookUpTolerance (candidate.duration + candidate.deltaPTS)
  if candidate.start + candidate.duration - candidateLookupTolerance ≤ bufferEnd then 1
  else if candidate.start - candidateLookupTolerance > bufferEnd ∧ candidate.start ≠ 0 then -1
  else 0

/-- isPdtWithinToleranceTest of src/m3u8/fragment-finders.ts: true when
the candidate tolerance-adjusted end program date time strictly exceeds
the target, with tolerance min(maxFragLookUpTolerance,
duration + deltaPTS) * 1000. A null endProgramDateTime coerces to 0 in
the JS subtraction. -/
def isPdtWithinToleranceTest (candidate : MediaFragment)
    (pdtBufferEnd : ℚ) (maxFragLookUpTolerance : ℚ) : Bool :=
  let candidateLookupTolerance :=
    min maxFragLookUpTolerance (candidate.duration + candidate.deltaPTS) * 1000
  decide (jsToNumber candidate.endProgramDateTime - candidateLookupTolerance > pdtBufferEnd)

/-- findFragmentByPDT of src/m3u8/fragment-finders.ts. pdtVal is none
when the JS argument is not a finite number. Returns none for an empty
list, a non-finite pdtVal, pdtVal below the first fragment
programDateTime or at or above the last fragment endProgramDateTime;
otherwise scans the list in order for the first fragment passing
isPdtWithinToleranceTest. The source line
maxFragLookUpTolerance = maxFragLookUpTolerance || 0 is the identity on
finite rationals and is dropped. -/
def findFragmentByPDT (fragments : List MediaFragment)
    (pdtVal : Option ℚ) (maxFragLookUpTolerance : ℚ) : Option MediaFragment :=
  match fragments, pdtVal with
  | [], _ => none
  | _ :: _, none => none
  | f0 :: rest, some v =>
    if v < jsToNumber f0.programDateTime then none
    else if v ≥ jsToNumber ((f0 :: rest).getLast (List.cons_ne_nil f0 rest)).endProgramDateTime then none
    else (f0 :: rest).find? fun f => isPdtWithinToleranceTest f v maxFragLookUpTolerance

/-- Modelled from the spec: BinarySearch.search is imported from
src/utils/binary-search, which is not among the provided sources. Per
section 4.1 of the spec its behavior must match a standard binary
search over a monotonic three-way predicate: maintain the closed index
interval [lo, hi], probe the middle element, search right of the probe
on 1, left on -1, and return the probe on 0, failing when the interval
empties. Here hiSucc carries hi + 1 so indices stay in ℕ, and fuel
bounds the iteration count; the interval shrinks at every step, so any
fuel at least the interval width makes the fuel guard unreachable. -/
def binarySearchGo (cmp : MediaFragment → ℤ) (fragments : List MediaFragment) :
    ℕ → ℕ → ℕ → Option MediaFragment
  | 0, _, _ => none
  | fuel + 1, lo, hiSucc =>
    if lo < hiSucc then
      match fragments[(lo + hiSucc - 1) / 2]? with
      | none => none
      | some f =>
        if cmp f > 0 then binarySearchGo cmp fragments fuel ((lo + hiSucc - 1) / 2 + 1) hiSucc
        else if cmp f < 0 then binarySearchGo cmp fragments fuel lo ((lo + hiSucc - 1) / 2)
        else some f
    else none

/-- Modelled from the spec: entry point of the binary search over the
whole fragment list (initial interval [0, length - 1]). -/
def binarySearch (fragments : List MediaFragment) (cmp : MediaFragment → ℤ) :
    Option MediaFragment :=
  binarySearchGo cmp fragments (fragments.length + 1) 0 fragments.length

/-- makeCompareFragmentFn of src/m3u8/fragment-finders.ts: the closure
passed to the binary search by findFragmentByPTS. -/
def makeCompareFragmentFn (bufferEnd maxFragLookUpTolerance : ℚ) : MediaFragment → ℤ :=
  fun f => compareFragmentWithTolerance f bufferEnd maxFragLookUpTolerance

/-- The fragNext computation at the top of findFragmentByPTS: when a
previous fragment is given, the candidate successor is looked up at raw
index fragPrevious.sn - fragments[0].sn + 1; an out-of-range or
negative index yields no candidate, as JS indexing yields undefined.
With a previous fragment and an empty list the source would dereference
undefined; the model yields no candidate there, and every theorem below
supplies a non-empty list. -/
def fragNextOf (fragPrevious : Option MediaFragment)
    (fragments : List MediaFragment) : Option MediaFragment :=
  match fragPrevious, fragments with
  | some prev, f0 :: _ =>
    if (prev.sn - f0.sn + 1 : ℤ) < 0 then none
    else fragments[(prev.sn - f0.sn + 1 : ℤ).toNat]?
  | _, _ => none

/-- findFragmentByPTS of src/m3u8/fragment-finders.ts: if the successor
candidate exists and the comparator classifies it 0 it is returned
directly (fast path), otherwise the full binary search runs. -/
def findFragmentByPTS (fragPrevious : Option MediaFragment)
    (fragments : List MediaFragment) (bufferEnd : ℚ)
    (maxFragLookUpTolerance : ℚ) : Option MediaFragment :=
  match fragNextOf fragPrevious fragments with
  | some f =>
    if compareFragmentWithTolerance f bufferEnd maxFragLookUpTolerance = 0 then some f
    else binarySearch fragments (makeCompareFragmentFn bufferEnd maxFragLookUpTolerance)
  | none => binarySearch fragments (makeCompareFragmentFn bufferEnd maxFragLookUpTolerance)

/-- The comparator values are non-increasing along the list: every
fragment classified too early (1) precedes every match (0), which
precedes every fragment classified too late (-1). -/
def SignMonotone (cmp : MediaFragment → ℤ) (fragments : List MediaFragment) : Prop :=
  ∀ i j (hi : i < fragments.length) (hj : j < fragments.length),
    i ≤ j → cmp fragments[j] ≤ cmp fragments[i]


/-! ### Network engine (src/network/network-engine.ts) -/

/-- NetworkEngineLoadOptions of src/network/network-engine.ts. -/
structure NetworkEngineLoadOptions where
  timeout : ℚ
  retryDelay : ℚ
  maxRetryDelay : ℚ
  maxRetry : ℕ
deriving Repr, DecidableEq

/-- The retry-relevant slice of NetworkEngine mutable state: the stats
retry counter and the current _retryDelay (seeded from
config.retryDelay by load). -/
structure NetworkEngineRetryState where
  retry : ℕ
  retryDelay : ℚ
deriving Repr, DecidableEq

/-- What one completed response (readyState 4) makes the engine do:
report success, report an error through onError, or schedule a retry
after the given delay. -/
inductive NetworkEngineOutcome where
  | success
  | failWith (code : ℤ)
  | retryAfter (delay : ℚ)
deriving Repr, DecidableEq

/-- The readyState 4 branch of NetworkEngine._handleReadyStateChange:
2xx invokes onSuccess; otherwise, when the retry budget is exhausted or
the status lies in the client-error band 400 <= status < 499, onError
is invoked; otherwise a retry is scheduled after the current
_retryDelay, the delay is doubled and capped at maxRetryDelay, and the
retry counter is incremented. -/
def handleReadyState4 (config : NetworkEngineLoadOptions)
    (st : NetworkEngineRetryState) (status : ℤ) :
    NetworkEngineOutcome × NetworkEngineRetryState :=
  if 200 ≤ status ∧ status < 300 then (.success, st)
  else if config.maxRetry ≤ st.retry ∨ (400 ≤ status ∧ status < 499) then
    (.failWith status, st)
  else
    (.retryAfter st.retryDelay,
      ⟨st.retry + 1, min (2 * st.retryDelay) config.maxRetryDelay⟩)

/-- Feeds the engine one HTTP status per attempt, collecting the
scheduled retry delays in order and the terminal outcome; none when the
status list is exhausted with a retry still pending. -/
def runStatuses (config : NetworkEngineLoadOptions) :
    NetworkEngineRetryState → List ℤ → List ℚ × Option NetworkEngineOutcome
  | _, [] => ([], none)
  | st, status :: rest =>
    match handleReadyState4 config st status with
    | (.retryAfter d, st1) =>
      let r := runStatuses config st1 rest
      (d :: r.1, r.2)
    | (out, _) => ([], some out)

/-- NetworkEngine.load followed by the attempt sequence: the retry
state starts at zero retries with _retryDelay = config.retryDelay. -/
def engineLoad (config : NetworkEngineLoadOptions) (statuses : List ℤ) :
    List ℚ × Option NetworkEngineOutcome :=
  runStatuses config ⟨0, config.retryDelay⟩ statuses

/-- The guard at the top of NetworkEngine._execRequest: issuing a
request while _xhr is still set throws (modelled as Except.error) and
is never retried; otherwise the request starts and the engine becomes
busy. -/
def execRequest (xhrActive : Bool) : Except Unit Bool :=
  if xhrActive then Except.error () else Except.ok true

/-! ### Playlist loading handler (src/unnamed/part_003) -/

/-- ContextType of the playlist loading handler. -/
inductive PlaylistContextType where
  | manifest
  | level
  | audioTrack
  | subtitleTrack
deriving Repr, DecidableEq

/-- The retry/timeout configuration fields of HlsConfig the playlist
loading handler reads. -/
structure PlaylistRetryConfig where
  manifestLoadingMaxRetry : ℕ
  manifestLoadingTimeOut : ℚ
  manifestLoadingRetryDelay : ℚ
  manifestLoadingMaxRetryTimeout : ℚ
  levelLoadingMaxRetry : ℕ
  levelLoadingTimeOut : ℚ
  levelLoadingRetryDelay : ℚ
  levelLoadingMaxRetryTimeout : ℚ
deriving Repr, DecidableEq

/-- The loader config assembled by PlaylistLoadingHandler.load; the
LEVEL branch of the switch leaves retryDelay and maxRetryDelay
undefined (none). -/
structure PlaylistLoaderOptions where
  maxRetry : ℕ
  timeout : ℚ
  retryDelay : Option ℚ
  maxRetryDelay : Option ℚ
deriving Repr, DecidableEq

/-- The switch over context.type in PlaylistLoadingHandler.load:
manifest contexts use the manifest-specific budget, LEVEL disables the
engine-level retry (maxRetry 0, comment: retries are managed in the
level controller), and the default branch (audio and subtitle tracks)
uses the level loading configuration. -/
def selectLoaderOptions (config : PlaylistRetryConfig) :
    PlaylistContextType → PlaylistLoaderOptions
  | .manifest =>
    ⟨config.manifestLoadingMaxRetry, config.manifestLoadingTimeOut,
      some config.manifestLoadingRetryDelay, some config.manifestLoadingMaxRetryTimeout⟩
  | .level => ⟨0, config.levelLoadingTimeOut, none, none⟩
  | .audioTrack =>
    ⟨config.levelLoadingMaxRetry, config.levelLoadingTimeOut,
      some config.levelLoadingRetryDelay, some config.levelLoadingMaxRetryTimeout⟩
  | .subtitleTrack =>
    ⟨config.levelLoadingMaxRetry, config.levelLoadingTimeOut,
      some config.levelLoadingRetryDelay, some config.levelLoadingMaxRetryTimeout⟩

/-- The fatal flag assigned by
PlaylistLoadingHandler._handleNetworkError per context type: manifest
failures are fatal, level, audio-track and subtitle-track (default
branch) failures are not. -/
def networkErrorFatal : PlaylistContextType → Bool
  | .manifest => true
  | .level => false
  | .audioTrack => false
  | .subtitleTrack => false

/-- Transport actions PlaylistLoadingHandler.load performs, in order.
URLs are abstract identifiers. -/
inductive PlaylistLoaderAction where
  | abortPrevious (t : PlaylistContextType)
  | startLoad (t : PlaylistContextType) (url : ℕ) (options : PlaylistLoaderOptions)
deriving Repr, DecidableEq

/-- PlaylistLoadingHandler.load: loaders maps each context type to the
url of its registered in-flight engine (none when no loader is
registered; both success and error paths deregister). A load for the
url already in flight on the same context type returns false and does
nothing; a load for a different url aborts the previous loader first;
then a fresh engine is registered and started with the per-context
options. Returns the JS return value, the updated loader map and the
actions in order. -/
def playlistLoad (config : PlaylistRetryConfig)
    (loaders : PlaylistContextType → Option ℕ) (url : ℕ)
    (t : PlaylistContextType) :
    Bool × (PlaylistContextType → Option ℕ) × List PlaylistLoaderAction :=
  match loaders t with
  | some activeUrl =>
    if activeUrl = url then (false, loaders, [])
    else
      (true, fun s => if s = t then some url else loaders s,
        [.abortPrevious t, .startLoad t url (selectLoaderOptions config t)])
  | none =>
    (true, fun s => if s = t then some url else loaders s,
      [.startLoad t url (selectLoaderOptions config t)])

/-! ### Key loading handler (src/unnamed/part_004) -/

/-- MediaVariantType: the per-fragment-type lanes the key loader keys
its loader map with. -/
inductive MediaVariantType where
  | main
  | audio
  | subtitle
deriving Repr, DecidableEq

/-- The slice of MediaFragment the key loader reads: its lane, its
sequence number, and its decryptdata uri and key bytes. URIs are
abstract identifiers; none is JS null. -/
structure KeyFragment where
  variantType : MediaVariantType
  sn : ℤ
  uri : Option ℕ
  key : Option (List ℕ)
deriving Repr, DecidableEq

/-- KeyLoadingHandler state: the cached key bytes and source uri
(_keyData, _keyUrl, both initially null) and which lanes have a
registered loader. -/
structure KeyLoaderState where
  keyData : Option (List ℕ)
  keyUrl : Option ℕ
  loaders : MediaVariantType → Bool

/-- Observable effects of the key loader: aborting the previous loader
of a lane, issuing a key fetch (with its engine maxRetry), and
emitting KEY_LOADED. -/
inductive KeyLoaderEvent where
  | abortLoader (t : MediaVariantType)
  | fetchKey (uri : Option ℕ) (maxRetry : ℕ)
  | keyLoaded (sn : ℤ)
deriving Repr, DecidableEq

/-- KeyLoadingHandler.onKeyLoading: when the fragment uri differs from
the cached one or no key bytes are cached, any loader registered for
the fragment lane is aborted and exactly one fetch with maxRetry 0 is
issued (the cache is reset to the new uri with no bytes); otherwise the
cached bytes are attached to the fragment decryptdata and KEY_LOADED is
emitted without any network activity. -/
def onKeyLoading (st : KeyLoaderState) (frag : KeyFragment) :
    KeyLoaderState × KeyFragment × List KeyLoaderEvent :=
  if frag.uri ≠ st.keyUrl ∨ st.keyData = none then
    ( { keyData := none
        keyUrl := frag.uri
        loaders := fun t => if t = frag.variantType then true else st.loaders t },
      frag,
      (if st.loaders frag.variantType then [.abortLoader frag.variantType] else [])
        ++ [.fetchKey frag.uri 0] )
  else
    match st.keyData with
    | some bytes => (st, { frag with key := some bytes }, [.keyLoaded frag.sn])
    | none => (st, frag, [])

/-- KeyLoadingHandler._handleSuccess: cache the received bytes, attach
them to the fragment decryptdata, deregister the lane loader and emit
KEY_LOADED. -/
def handleKeyLoadSuccess (st : KeyLoaderState) (frag : KeyFragment)
    (bytes : List ℕ) : KeyLoaderState × KeyFragment × List KeyLoaderEvent :=
  ( { st with
      keyData := some bytes
      loaders := fun t => if t = frag.variantType then false else st.loaders t },
    { frag with key := some bytes },
    [.keyLoaded frag.sn] )

/-- Number of key fetches among the observable events. -/
def countKeyFetches (events : List KeyLoaderEvent) : ℕ :=
  events.countP fun e => match e with | .fetchKey _ _ => true | _ => false

/-! ### LevelKey and decrypt data derivation (src/unnamed/part_001 and
the LevelKey class) -/

/-- LevelKey: method and resolved uri are abstract identifiers (none is
JS null; the source resolves uri lazily from baseuri and reluri through
url-toolkit, which the model keeps abstract since only presence is ever
branched on). The constructor leaves method, key and iv null. -/
structure LevelKey where
  method : Option ℕ
  key : Option (List ℕ)
  iv : Option (List ℕ)
  uri : Option ℕ
deriving Repr, DecidableEq

/-- MediaFragment._createInitializationVector: a 16-byte array, zero
everywhere except bytes 12 to 15, which hold
(segmentNumber >> 8 * (15 - i)) & 0xff. JS applies its 32-bit shift to
the number; for segmentNumber < 2 ^ 32 the byte values agree with the
natural-number shift-and-mask written here (the arithmetic shift of the
wrapped value differs from the logical one only above bit 7 of each
extracted byte, which the mask discards). -/
def createInitializationVector (segmentNumber : ℕ) : List ℕ :=
  (List.range 16).map fun i =>
    if i < 12 then 0 else (segmentNumber >>> (8 * (15 - i))) % 256

/-- MediaFragment._createDecryptDataFromLevelkey: when the playlist key
has a method and a uri but no explicit iv, a fresh LevelKey is built
carrying the same method and uri resolution, a null key, and the iv
derived from the sequence number; otherwise the playlist key object
itself is returned. -/
def createDecryptDataFromLevelkey (levelkey : Option LevelKey)
    (segmentNumber : ℕ) : Option LevelKey :=
  match levelkey with
  | none => none
  | some lk =>
    if lk.method.isSome ∧ lk.uri.isSome ∧ lk.iv = none then
      some { method := lk.method, key := none,
             iv := some (createInitializationVector segmentNumber), uri := lk.uri }
    else some lk

/-- The slice of MediaFragment the encrypted getter reads: the lazily
cached _decryptdata, the playlist levelkey and the sequence number. -/
structure MediaFragmentKeyView where
  sn : ℕ
  levelkey : Option LevelKey
  decryptdataCache : Option LevelKey
deriving Repr, DecidableEq

/-- The decryptdata getter: the cached value when present, else the
value derived from the playlist levelkey (which the source then
caches; caching does not change the value, so the model reads it
directly). -/
def decryptdataOf (f : MediaFragmentKeyView) : Option LevelKey :=
  match f.decryptdataCache with
  | some d => some d
  | none => createDecryptDataFromLevelkey f.levelkey f.sn

/-- The encrypted getter of MediaFragment: decryptdata exists, its uri
is not null, and its key is still null. -/
def fragmentEncrypted (f : MediaFragmentKeyView) : Bool :=
  match decryptdataOf f with
  | none => false
  | some d => d.uri.isSome && d.key.isNone

/-- The frag.decryptdata.key assignment performed by the key loader on
success: materialize decryptdata and set its key bytes. When
decryptdata is null the source would throw; the key loading flow only
reaches this with decryptdata present. -/
def attachKeyBytes (f : MediaFragmentKeyView) (bytes : List ℕ) :
    MediaFragmentKeyView :=
  match decryptdataOf f with
  | some d => { f with decryptdataCache := some { d with key := some bytes } }
  | none => f

/-! ### Media fragment receiver (src/unnamed/part_007) -/

/-- MediaFragmentReceiverState. -/
inductive ReceiverState where
  | stopped
  | idle
  | keyLoading
  | fragLoading
  | fragLoadingWaitingRetry
  | waitingLevel
  | parsing
  | parsed
  | bufferFlushing
  | ended
  | error
deriving Repr, DecidableEq

/-- The elementary stream kinds appearing as data.type of a parse-data
event. -/
inductive ElementaryStreamKind where
  | audio
  | video
  | text
deriving Repr, DecidableEq

/-- The slice of the current fragment onFragParsingData reads and
writes: identity, duration, the dropped counter, the backtracked flag
and the elementary stream presence map. -/
structure ReceiverFragment where
  sn : ℤ
  level : ℤ
  duration : ℚ
  dropped : ℕ
  backtracked : Bool
  esAudio : Bool
  esVideo : Bool
deriving Repr, DecidableEq

/-- The slice of the level details onFragParsingData reads: the first
advertised sequence number. -/
structure LevelDetailsSlice where
  startSN : ℤ
deriving Repr, DecidableEq

/-- A FRAG_PARSING_DATA event. dropped is the dropped leading frame
count (0 for a falsy JS value); endPTS and endDTS are none when not
finite; data1len and data2len are the byte lengths of the two remuxed
buffers. -/
structure FragParsingData where
  idIsMain : Bool
  sn : ℤ
  level : ℤ
  kind : ElementaryStreamKind
  startPTS : ℚ
  endPTS : Option ℚ
  startDTS : ℚ
  endDTS : Option ℚ
  dropped : ℕ
  hasAudio : Bool
  hasVideo : Bool
  data1len : ℕ
  data2len : ℕ
deriving Repr, DecidableEq

/-- The slice of MediaFragmentReceiver state onFragParsingData touches.
trackedSNs stands for the fragment tracker content (by sequence
number). -/
structure MediaFragmentReceiver where
  state : ReceiverState
  fragCurrent : Option ReceiverFragment
  altAudio : Bool
  levelDetails : Option LevelDetailsSlice
  nextLoadPosition : ℚ
  fragPrevious : Option ReceiverFragment
  trackedSNs : List ℤ
  appended : Bool
  pendingBuffering : Bool

/-- One BUFFER_APPENDING message as emitted for data1 and data2. -/
structure BufferAppendMessage where
  kind : ElementaryStreamKind
  byteLength : ℕ
deriving Repr, DecidableEq

/-- The JS guard levelDetails && frag.sn === levelDetails.startSN that
diverts the first fragment of the playlist to append-with-gap instead
of backtracking. -/
def isFirstFragmentOfDetails (details : Option LevelDetailsSlice) (sn : ℤ) : Bool :=
  match details with
  | some ld => sn = ld.startSN
  | none => false

/-- The tail of onFragParsingData shared by every non-backtracking
path: update fragCurrent, emit a BUFFER_APPENDING message per non-empty
buffer (arming appended and pendingBuffering), leaving the state in
PARSING. The external LevelHelper.updateFragPTSDTS call only adjusts
timing fields none of the modelled observations read. -/
def appendParsedBuffers (rs : MediaFragmentReceiver) (frag : ReceiverFragment)
    (d : FragParsingData) : MediaFragmentReceiver × List BufferAppendMessage :=
  let appends :=
    (if 0 < d.data1len then [BufferAppendMessage.mk d.kind d.data1len] else [])
      ++ (if 0 < d.data2len then [BufferAppendMessage.mk d.kind d.data2len] else [])
  ( { rs with
      fragCurrent := some frag
      appended := rs.appended || !appends.isEmpty
      pendingBuffering := rs.pendingBuffering || !appends.isEmpty },
    appends )

/-- MediaFragmentReceiver.onFragParsingData. The event is ignored
unless there is a current fragment, the event is for the main stream
and matches it by sequence number and level, it is not main audio while
an alternate audio track is active, and the machine is PARSING. For a
video event the dropped counter is copied onto the fragment; a dropped
count on a not-yet-backtracked fragment that is not the first of the
playlist removes the fragment from the tracker, marks it backtracked,
rewinds nextLoadPosition to the parsed startPTS, records it as
fragPrevious and returns to IDLE with no append; a dropped count on an
already backtracked fragment (or on the playlist first fragment) falls
through to the append path; a clean video parse clears backtracked. -/
def onFragParsingData (rs : MediaFragmentReceiver) (d : FragParsingData) :
    MediaFragmentReceiver × List BufferAppendMessage :=
  match rs.fragCurrent with
  | none => (rs, [])
  | some frag0 =>
    if d.idIsMain ∧ d.sn = frag0.sn ∧ d.level = frag0.level ∧
        ¬(d.kind = ElementaryStreamKind.audio ∧ rs.altAudio) ∧
        rs.state = ReceiverState.parsing then
      let frag1 : ReceiverFragment :=
        { frag0 with
          esAudio := frag0.esAudio || d.hasAudio
          esVideo := frag0.esVideo || d.hasVideo }
      if d.kind = ElementaryStreamKind.video then
        let frag2 : ReceiverFragment := { frag1 with dropped := d.dropped }
        if frag2.dropped ≠ 0 then
          if ¬frag2.backtracked then
            if isFirstFragmentOfDetails rs.levelDetails frag2.sn then
              appendParsedBuffers rs frag2 d
            else
              let frag3 : ReceiverFragment := { frag2 with backtracked := true }
              ( { rs with
                  fragCurrent := some frag3
                  trackedSNs := rs.trackedSNs.filter fun sn => sn ≠ frag3.sn
                  nextLoadPosition := d.startPTS
                  state := ReceiverState.idle
                  fragPrevious := some frag3 },
                [] )
          else appendParsedBuffers rs frag2 d
        else appendParsedBuffers rs { frag2 with backtracked := false } d
      else appendParsedBuffers rs frag1 d
    else (rs, [])


/-! ## Theorems -/

/-- Helper: the binary search finds the unique comparator zero provided
the comparator signs are monotone along the list and the zero index
lies in the searched interval. -/
theorem binarySearchGo_finds (cmp : MediaFragment → ℤ) (fragments : List MediaFragment)
    (k : ℕ) (hk : k < fragments.length)
    (hmono : SignMonotone cmp fragments)
    (hzero : cmp fragments[k] = 0)
    (huniq : ∀ j (hj : j < fragments.length), cmp fragments[j] = 0 → j = k) :
    ∀ (fuel lo hiSucc : ℕ), lo ≤ k → k < hiSucc → hiSucc ≤ fragments.length →
      hiSucc - lo ≤ fuel →
      binarySearchGo cmp fragments fuel lo hiSucc = some fragments[k] := by
  intro fuel
  induction fuel with
  | zero => intro lo hiSucc h1 h2 h3 h4; omega
  | succ fuel ih =>
    intro lo hiSucc h1 h2 h3 h4
    have hlt : lo < hiSucc := by omega
    have hmid : (lo + hiSucc - 1) / 2 < fragments.length := by omega
    have hmidlo : lo ≤ (lo + hiSucc - 1) / 2 := by omega
    have hmidhi : (lo + hiSucc - 1) / 2 < hiSucc := by omega
    rw [binarySearchGo, if_pos hlt, List.getElem?_eq_getElem hmid]
    show (if cmp fragments[(lo + hiSucc - 1) / 2] > 0 then
            binarySearchGo cmp fragments fuel ((lo + hiSucc - 1) / 2 + 1) hiSucc
          else if cmp fragments[(lo + hiSucc - 1) / 2] < 0 then
            binarySearchGo cmp fragments fuel lo ((lo + hiSucc - 1) / 2)
          else some fragments[(lo + hiSucc - 1) / 2]) = some fragments[k]
    by_cases hpos : cmp fragments[(lo + hiSucc - 1) / 2] > 0
    · rw [if_pos hpos]
      have hklt : (lo + hiSucc - 1) / 2 < k := by
        by_contra hle
        have : cmp fragments[(lo + hiSucc - 1) / 2] ≤ cmp fragments[k] :=
          hmono k ((lo + hiSucc - 1) / 2) hk hmid (by omega)
        omega
      exact ih _ _ (by omega) h2 h3 (by omega)
    · rw [if_neg hpos]
      by_cases hneg : cmp fragments[(lo + hiSucc - 1) / 2] < 0
      · rw [if_pos hneg]
        have hkgt : k < (lo + hiSucc - 1) / 2 := by
          by_contra hle
          have : cmp fragments[k] ≤ cmp fragments[(lo + hiSucc - 1) / 2] :=
            hmono ((lo + hiSucc - 1) / 2) k hmid hk (by omega)
          omega
        exact ih _ _ h1 hkgt (by omega) (by omega)
      · rw [if_neg hneg]
        have h0 : cmp fragments[(lo + hiSucc - 1) / 2] = 0 := by omega
        have := huniq _ hmid h0
        subst this
        rfl

/-- Helper: binarySearch over the whole list under the same
hypotheses. -/
theorem binarySearch_finds (cmp : MediaFragment → ℤ) (fragments : List MediaFragment)
    (k : ℕ) (hk : k < fragments.length)
    (hmono : SignMonotone cmp fragments)
    (hzero : cmp fragments[k] = 0)
    (huniq : ∀ j (hj : j < fragments.length), cmp fragments[j] = 0 → j = k) :
    binarySearch fragments cmp = some fragments[k] :=
  binarySearchGo_finds cmp fragments k hk hmono hzero huniq _ 0 fragments.length
    (Nat.zero_le k) hk (Nat.le_refl _) (by omega)

/-- Helper: a successor candidate produced by fragNextOf is an element
of the list. -/
theorem fragNextOf_getElem (fragPrevious : Option MediaFragment)
    (fragments : List MediaFragment) (f : MediaFragment)
    (h : fragNextOf fragPrevious fragments = some f) :
    ∃ i, ∃ hi : i < fragments.length, fragments[i] = f := by
  match fragPrevious, fragments with
  | none, l => simp [fragNextOf] at h
  | some prev, [] => simp [fragNextOf] at h
  | some prev, f0 :: rest =>
    rw [fragNextOf] at h
    split at h
    · exact absurd h (by simp)
    · rw [List.getElem?_eq_some] at h
      exact ⟨_, h.1, h.2⟩

/-- C1 (amended): for every fragment list on which the tolerance
comparator for the given bufferEnd is sign-monotone and classifies
exactly one fragment as a match (comparator value 0), findFragmentByPTS
returns that fragment, whatever previous fragment is supplied. The
bufferEnd range condition of the original claim does not guarantee that
a match exists (nor that it is unique), so the hypotheses state the
existence and uniqueness of the match directly. -/
theorem findFragmentByPTS_unique_tolerance_match (fragPrevious : Option MediaFragment)
    (fragments : List MediaFragment) (bufferEnd maxFragLookUpTolerance : ℚ)
    (k : ℕ) (hk : k < fragments.length)
    (hmono : SignMonotone (makeCompareFragmentFn bufferEnd maxFragLookUpTolerance) fragments)
    (hzero : compareFragmentWithTolerance fragments[k] bufferEnd maxFragLookUpTolerance = 0)
    (huniq : ∀ j (hj : j < fragments.length),
      compareFragmentWithTolerance fragments[j] bufferEnd maxFragLookUpTolerance = 0 → j = k) :
    findFragmentByPTS fragPrevious fragments bufferEnd maxFragLookUpTolerance
      = some fragments[k] := by
  have hsearch : binarySearch fragments (makeCompareFragmentFn bufferEnd maxFragLookUpTolerance)
      = some fragments[k] :=
    binarySearch_finds _ _ k hk hmono hzero huniq
  rw [findFragmentByPTS]
  cases hfn : fragNextOf fragPrevious fragments with
  | none => exact hsearch
  | some f =>
    show (if compareFragmentWithTolerance f bufferEnd maxFragLookUpTolerance = 0 then some f
          else binarySearch fragments (makeCompareFragmentFn bufferEnd maxFragLookUpTolerance))
        = some fragments[k]
    by_cases hc : compareFragmentWithTolerance f bufferEnd maxFragLookUpTolerance = 0
    · rw [if_pos hc]
      obtain ⟨i, hi, rfl⟩ := fragNextOf_getElem _ _ _ hfn
      have hik := huniq i hi hc
      subst hik
      rfl
    · rw [if_neg hc]
      exact hsearch

/-- C1 witness: on the list with fragments [0,10) and [10,20) and
bufferEnd 5 with tolerance 0, the first fragment is the unique match
and findFragmentByPTS returns it. -/
theorem findFragmentByPTS_unique_tolerance_match_witness :
    findFragmentByPTS none
      [⟨0, 0, 10, 0, none⟩, ⟨1, 10, 10, 0, none⟩] 5 0
      = some ⟨0, 0, 10, 0, none⟩ := by
  have hA : compareFragmentWithTolerance ⟨0, 0, 10, 0, none⟩ 5 0 = 0 := by
    norm_num [compareFragmentWithTolerance]
  have hB : compareFragmentWithTolerance ⟨1, 10, 10, 0, none⟩ 5 0 = -1 := by
    norm_num [compareFragmentWithTolerance]
  have h := findFragmentByPTS_unique_tolerance_match none
    [⟨0, 0, 10, 0, none⟩, ⟨1, 10, 10, 0, none⟩] 5 0 0 (by norm_num)
    (by
      intro i j hi hj hij
      simp only [List.length_cons, List.length_nil] at hi hj
      interval_cases i <;> interval_cases j <;>
        simp_all [makeCompareFragmentFn])
    (by simpa using hA)
    (by
      intro j hj h0
      simp only [List.length_cons, List.length_nil] at hj
      interval_cases j
      · rfl
      · simp_all)
  simpa using h

/-- C1 counterexample: a start-monotonic two-fragment list with a gap;
bufferEnd 50 lies in [first.start, last.start + last.duration) yet no
fragment satisfies the tolerance comparator and findFragmentByPTS
returns none, so no fragment whose tolerance-adjusted interval contains
bufferEnd is returned. -/
theorem findFragmentByPTS_match_can_be_missing :
    ((⟨0, 0, 1, 0, none⟩ : MediaFragment).start ≤ (⟨1, 100, 1, 0, none⟩ : MediaFragment).start) ∧
    ((⟨0, 0, 1, 0, none⟩ : MediaFragment).start ≤ 50) ∧
    ((50 : ℚ) < (⟨1, 100, 1, 0, none⟩ : MediaFragment).start
      + (⟨1, 100, 1, 0, none⟩ : MediaFragment).duration) ∧
    (∀ f ∈ [(⟨0, 0, 1, 0, none⟩ : MediaFragment), ⟨1, 100, 1, 0, none⟩],
      compareFragmentWithTolerance f 50 0 ≠ 0) ∧
    findFragmentByPTS none [⟨0, 0, 1, 0, none⟩, ⟨1, 100, 1, 0, none⟩] 50 0 = none := by
  refine ⟨by norm_num, by norm_num, by norm_num, ?_, ?_⟩
  · intro f hf
    rcases List.mem_pair.mp hf with rfl | rfl <;>
      norm_num [compareFragmentWithTolerance]
  · norm_num [findFragmentByPTS, fragNextOf, binarySearch, binarySearchGo,
      makeCompareFragmentFn, compareFragmentWithTolerance]

/-- C3 (amended): when the successor of the previous fragment (by raw
sequence-number index arithmetic) exists in the list and the tolerance
comparator classifies it 0, findFragmentByPTS returns it directly; and
provided additionally the comparator is sign-monotone on the list and
the successor is the only comparator zero, the full binary search over
the same comparator returns the same fragment. Without the uniqueness
proviso the fast path and the full search can disagree (see the
counterexample). -/
theorem findFragmentByPTS_fast_path (prev : MediaFragment)
    (fragments : List MediaFragment) (bufferEnd maxFragLookUpTolerance : ℚ)
    (k : ℕ) (hk : k < fragments.length)
    (hnext : fragNextOf (some prev) fragments = some fragments[k])
    (hmatch : compareFragmentWithTolerance fragments[k] bufferEnd maxFragLookUpTolerance = 0) :
    findFragmentByPTS (some prev) fragments bufferEnd maxFragLookUpTolerance
      = some fragments[k] ∧
    (SignMonotone (makeCompareFragmentFn bufferEnd maxFragLookUpTolerance) fragments →
      (∀ j (hj : j < fragments.length),
        compareFragmentWithTolerance fragments[j] bufferEnd maxFragLookUpTolerance = 0 → j = k) →
      binarySearch fragments (makeCompareFragmentFn bufferEnd maxFragLookUpTolerance)
        = some fragments[k]) := by
  constructor
  · rw [findFragmentByPTS, hnext]
    show (if compareFragmentWithTolerance fragments[k] bufferEnd maxFragLookUpTolerance = 0
          then some fragments[k]
          else binarySearch fragments (makeCompareFragmentFn bufferEnd maxFragLookUpTolerance))
        = some fragments[k]
    rw [if_pos hmatch]
  · intro hmono huniq
    exact binarySearch_finds _ _ k hk hmono hmatch huniq

/-- C3 witness: previous fragment [0,10), successor [10,20), bufferEnd
15, tolerance 0: the fast path returns the successor and the full
binary search agrees. -/
theorem findFragmentByPTS_fast_path_witness :
    findFragmentByPTS (some ⟨0, 0, 10, 0, none⟩)
      [⟨0, 0, 10, 0, none⟩, ⟨1, 10, 10, 0, none⟩] 15 0
      = some ⟨1, 10, 10, 0, none⟩ ∧
    binarySearch [⟨0, 0, 10, 0, none⟩, ⟨1, 10, 10, 0, none⟩]
      (makeCompareFragmentFn 15 0) = some ⟨1, 10, 10, 0, none⟩ := by
  have hA : compareFragmentWithTolerance ⟨0, 0, 10, 0, none⟩ 15 0 = 1 := by
    norm_num [compareFragmentWithTolerance]
  have hB : compareFragmentWithTolerance ⟨1, 10, 10, 0, none⟩ 15 0 = 0 := by
    norm_num [compareFragmentWithTolerance]
  have h := findFragmentByPTS_fast_path ⟨0, 0, 10, 0, none⟩
    [⟨0, 0, 10, 0, none⟩, ⟨1, 10, 10, 0, none⟩] 15 0 1 (by norm_num)
    rfl (by simpa using hB)
  refine ⟨by simpa using h.1, ?_⟩
  have h2 := h.2
    (by
      intro i j hi hj hij
      simp only [List.length_cons, List.length_nil] at hi hj
      interval_cases i <;> interval_cases j <;>
        simp_all [makeCompareFragmentFn])
    (by
      intro j hj h0
      simp only [List.length_cons, List.length_nil] at hj
      interval_cases j
      · simp_all
      · rfl)
  simpa using h2

/-- C3 counterexample: overlapping start-monotonic fragments [0,10) and
[5,15) with tolerance 0 and bufferEnd 7: both fragments satisfy the
comparator, the fast path (previous fragment the first one) returns the
second fragment, while the full binary search over the same comparator
returns the first, so the fast-path result does not equal the full
search result. -/
theorem findFragmentByPTS_fast_path_differs_from_search :
    compareFragmentWithTolerance ⟨1, 5, 10, 0, none⟩ 7 0 = 0 ∧
    findFragmentByPTS (some ⟨0, 0, 10, 0, none⟩)
      [⟨0, 0, 10, 0, none⟩, ⟨1, 5, 10, 0, none⟩] 7 0 = some ⟨1, 5, 10, 0, none⟩ ∧
    binarySearch [⟨0, 0, 10, 0, none⟩, ⟨1, 5, 10, 0, none⟩]
      (makeCompareFragmentFn 7 0) = some ⟨0, 0, 10, 0, none⟩ ∧
    (⟨0, 0, 10, 0, none⟩ : MediaFragment) ≠ ⟨1, 5, 10, 0, none⟩ := by
  refine ⟨by norm_num [compareFragmentWithTolerance], ?_, ?_, by simp⟩
  · norm_num [findFragmentByPTS, fragNextOf, compareFragmentWithTolerance]
  · norm_num [binarySearch, binarySearchGo, makeCompareFragmentFn,
      compareFragmentWithTolerance]


/-- C2 (amended): findFragmentByPDT returns null for an empty list or a
non-finite pdtVal; on a non-empty list with finite pdtVal it returns
some fragment g exactly when pdtVal is neither below the first
fragment programDateTime nor at or above the last fragment
endProgramDateTime, and g is the first fragment in list order whose
tolerance-adjusted end program date time strictly exceeds pdtVal. In
particular it also returns null, inside the admission range, when no
fragment passes the tolerance test, a case the original claim excludes
(see the counterexample). -/
theorem findFragmentByPDT_characterization :
    (∀ (fragments : List MediaFragment) (tol : ℚ),
      findFragmentByPDT fragments none tol = none) ∧
    (∀ (pdtVal : Option ℚ) (tol : ℚ), findFragmentByPDT [] pdtVal tol = none) ∧
    (∀ (f0 : MediaFragment) (rest : List MediaFragment) (v tol : ℚ) (g : MediaFragment),
      findFragmentByPDT (f0 :: rest) (some v) tol = some g ↔
        ¬(v < jsToNumber f0.programDateTime) ∧
        ¬(v ≥ jsToNumber ((f0 :: rest).getLast (List.cons_ne_nil f0 rest)).endProgramDateTime) ∧
        isPdtWithinToleranceTest g v tol = true ∧
        ∃ i, ∃ hi : i < (f0 :: rest).length, (f0 :: rest)[i] = g ∧
          ∀ j, (hj : j < i) → isPdtWithinToleranceTest (f0 :: rest)[j] v tol = false) := by
  refine ⟨?_, ?_, ?_⟩
  · intro fragments tol
    cases fragments <;> rfl
  · intro pdtVal tol
    rfl
  · intro f0 rest v tol g
    rw [findFragmentByPDT]
    by_cases h1 : v < jsToNumber f0.programDateTime
    · rw [if_pos h1]
      simp [h1]
    · rw [if_neg h1]
      by_cases h2 : v ≥ jsToNumber
          ((f0 :: rest).getLast (List.cons_ne_nil f0 rest)).endProgramDateTime
      · rw [if_pos h2]
        simp [h1, h2]
      · rw [if_neg h2]
        rw [List.find?_eq_some_iff_getElem]
        simp only [h1, h2, not_false_iff, true_and, Bool.not_eq_true']

/-- C2 witness: a single fragment with programDateTime 0 and duration
10 at pdtVal 500 and tolerance 0 is found (its unadjusted end PDT 10000
exceeds 500). -/
theorem findFragmentByPDT_characterization_witness :
    findFragmentByPDT [⟨0, 0, 10, 0, some 0⟩] (some 500) 0
      = some ⟨0, 0, 10, 0, some 0⟩ := by
  refine (findFragmentByPDT_characterization.2.2 ⟨0, 0, 10, 0, some 0⟩ [] 500 0
    ⟨0, 0, 10, 0, some 0⟩).mpr ⟨?_, ?_, ?_, 0, by norm_num, rfl, by omega⟩
  · norm_num [jsToNumber]
  · norm_num [jsToNumber, MediaFragment.endProgramDateTime]
  · norm_num [isPdtWithinToleranceTest, jsToNumber, MediaFragment.endProgramDateTime]

/-- C2 counterexample: one fragment with programDateTime 0, duration 10
and tolerance 20; pdtVal 5000 is at or after the first PDT and strictly
before the last end PDT, the list is non-empty and pdtVal finite, yet
findFragmentByPDT returns null (the tolerance-adjusted end PDT
10000 - min(20, 10) * 1000 = 0 exceeds no pdtVal in range), refuting
the claimed exact characterization of the null result. -/
theorem findFragmentByPDT_null_inside_range :
    findFragmentByPDT [⟨0, 0, 10, 0, some 0⟩] (some 5000) 20 = none ∧
    ¬((5000 : ℚ) < jsToNumber (⟨0, 0, 10, 0, some 0⟩ : MediaFragment).programDateTime) ∧
    ¬((5000 : ℚ) ≥ jsToNumber (⟨0, 0, 10, 0, some 0⟩ : MediaFragment).endProgramDateTime) := by
  refine ⟨?_, by norm_num [jsToNumber], ?_⟩
  · norm_num [findFragmentByPDT, jsToNumber, MediaFragment.endProgramDateTime,
      isPdtWithinToleranceTest]
  · norm_num [jsToNumber, MediaFragment.endProgramDateTime]

/-- C4 (amended): with maxRetry 3 and every response HTTP 503 the
engine schedules exactly 3 retries, with delays starting at retryDelay
and doubling each attempt capped at maxRetryDelay, then reports the
error through onError; the delays are non-decreasing provided
0 <= retryDelay <= maxRetryDelay. Every response with status in 400 to
498 makes the engine invoke onError at once, from any retry state and
under any configuration, so no retry is ever scheduled for those
statuses (status 499, although a 4xx status, lies outside the code
client-error band and is retried; see the counterexample). -/
theorem networkEngine_retry_policy (t d M : ℚ) (hd : 0 ≤ d) (hdM : d ≤ M) :
    engineLoad ⟨t, d, M, 3⟩ [503, 503, 503, 503]
      = ([d, min (2 * d) M, min (2 * min (2 * d) M) M],
         some (NetworkEngineOutcome.failWith 503)) ∧
    List.Chain' (· ≤ ·) [d, min (2 * d) M, min (2 * min (2 * d) M) M] ∧
    (∀ (config : NetworkEngineLoadOptions) (st : NetworkEngineRetryState) (s : ℤ),
      400 ≤ s → s ≤ 498 →
      handleReadyState4 config st s = (NetworkEngineOutcome.failWith s, st)) := by
  refine ⟨?_, ?_, ?_⟩
  · simp only [engineLoad, runStatuses, handleReadyState4]
    norm_num
  · have h1 : 0 ≤ min (2 * d) M := le_min (by linarith) (by linarith)
    have h2 : d ≤ min (2 * d) M := le_min (by linarith) hdM
    have h3 : min (2 * d) M ≤ min (2 * min (2 * d) M) M :=
      le_min (by linarith) (min_le_right _ _)
    simp [List.chain'_cons, h2, h3]
  · intro config st s hs1 hs2
    rw [handleReadyState4, if_neg (by omega), if_pos (Or.inr (by omega))]


/-- C4 witness: retryDelay 1000 and maxRetryDelay 64000 under all-503
responses schedule delays 1000, 2000, 4000 and then fail with 503; a
404 response fails immediately from the initial state. -/
theorem networkEngine_retry_policy_witness :
    engineLoad ⟨10000, 1000, 64000, 3⟩ [503, 503, 503, 503]
      = ([1000, 2000, 4000], some (NetworkEngineOutcome.failWith 503)) ∧
    handleReadyState4 ⟨10000, 1000, 64000, 3⟩ ⟨0, 1000⟩ 404
      = (NetworkEngineOutcome.failWith 404, ⟨0, 1000⟩) := by
  have h := networkEngine_retry_policy 10000 1000 64000 (by norm_num) (by norm_num)
  have h1 := h.1
  have e1 : min (2 * (1000 : ℚ)) 64000 = 2000 := by
    rw [min_eq_left] <;> norm_num
  rw [e1] at h1
  have e2 : min (2 * (2000 : ℚ)) 64000 = 4000 := by
    rw [min_eq_left] <;> norm_num
  rw [e2] at h1
  exact ⟨h1, h.2.2 _ _ 404 (by norm_num) (by norm_num)⟩

/-- C4 counterexample: HTTP 499 is a 4xx client-error status, yet with
retries remaining the engine schedules a retry for it instead of
invoking onError; and with retryDelay 10 above maxRetryDelay 3 the
scheduled all-503 delays 10, 3, 3 are not non-decreasing. -/
theorem networkEngine_4xx_band_counterexample :
    handleReadyState4 ⟨10000, 1000, 64000, 3⟩ ⟨0, 1000⟩ 499
      = (NetworkEngineOutcome.retryAfter 1000, ⟨1, min 2000 64000⟩) ∧
    engineLoad ⟨10000, 10, 3, 3⟩ [503, 503, 503, 503]
      = ([10, min 20 3, min (2 * min 20 3) 3], some (NetworkEngineOutcome.failWith 503)) ∧
    ¬ List.Chain' (· ≤ ·) [(10 : ℚ), min 20 3, min (2 * min 20 3) 3] := by
  refine ⟨?_, ?_, ?_⟩
  · rw [handleReadyState4]
    norm_num
  · simp only [engineLoad, runStatuses, handleReadyState4]
    norm_num
  · have e1 : min (20 : ℚ) 3 = 3 := by
      rw [min_eq_right]
      norm_num
    rw [e1]
    have e2 : min (2 * (3 : ℚ)) 3 = 3 := by
      rw [min_eq_right]
      norm_num
    rw [e2]
    simp only [List.chain'_cons, List.chain'_singleton, and_true]
    norm_num


/-- C5 (amended): a video parse event reporting dropped leading frames
for the matching current fragment in PARSING state (main stream, no
alternate-audio filtering), on a fragment not already backtracked and
not the first fragment of the playlist, removes the fragment from the
tracker, marks it backtracked, rewinds nextLoadPosition to the parsed
startPTS, records it as fragPrevious and returns to IDLE without any
buffer-append; re-delivered with backtracked already true it proceeds
to buffer-append despite the gap, staying in PARSING with tracker and
nextLoadPosition untouched. The first-fragment exception
(frag.sn = levelDetails.startSN appends with the gap instead of
backtracking) is what the original claim misses. -/
theorem onFragParsingData_backtrack_policy :
    (∀ (rs : MediaFragmentReceiver) (d : FragParsingData) (frag : ReceiverFragment),
      rs.fragCurrent = some frag → d.idIsMain = true → d.sn = frag.sn →
      d.level = frag.level → d.kind = ElementaryStreamKind.video →
      rs.state = ReceiverState.parsing → d.dropped ≠ 0 →
      frag.backtracked = false →
      isFirstFragmentOfDetails rs.levelDetails frag.sn = false →
      (onFragParsingData rs d).2 = [] ∧
      (onFragParsingData rs d).1.state = ReceiverState.idle ∧
      (onFragParsingData rs d).1.nextLoadPosition = d.startPTS ∧
      (onFragParsingData rs d).1.trackedSNs
        = rs.trackedSNs.filter (fun sn => sn ≠ frag.sn) ∧
      ∃ frag1, (onFragParsingData rs d).1.fragCurrent = some frag1 ∧
        frag1.backtracked = true ∧ frag1.sn = frag.sn ∧
        (onFragParsingData rs d).1.fragPrevious = some frag1) ∧
    (∀ (rs : MediaFragmentReceiver) (d : FragParsingData) (frag : ReceiverFragment),
      rs.fragCurrent = some frag → d.idIsMain = true → d.sn = frag.sn →
      d.level = frag.level → d.kind = ElementaryStreamKind.video →
      rs.state = ReceiverState.parsing → d.dropped ≠ 0 →
      frag.backtracked = true → 0 < d.data1len →
      (onFragParsingData rs d).2 ≠ [] ∧
      (onFragParsingData rs d).1.state = ReceiverState.parsing ∧
      (onFragParsingData rs d).1.nextLoadPosition = rs.nextLoadPosition ∧
      (onFragParsingData rs d).1.trackedSNs = rs.trackedSNs ∧
      ∃ frag1, (onFragParsingData rs d).1.fragCurrent = some frag1 ∧
        frag1.backtracked = true ∧ frag1.sn = frag.sn) := by
  constructor
  · intro rs d frag hfc hid hsn hlv hkind hstate hdrop hbt hfirst
    have haud : ¬(d.kind = ElementaryStreamKind.audio ∧ rs.altAudio) := by
      rw [hkind]
      simp
    simp only [onFragParsingData, hfc]
    rw [if_pos ⟨by rw [hid], hsn, hlv, haud, hstate⟩, if_pos hkind]
    simp only [hdrop, hbt, hfirst]
    simp [hdrop]
  · intro rs d frag hfc hid hsn hlv hkind hstate hdrop hbt h1
    have haud : ¬(d.kind = ElementaryStreamKind.audio ∧ rs.altAudio) := by
      rw [hkind]
      simp
    simp only [onFragParsingData, hfc]
    rw [if_pos ⟨by rw [hid], hsn, hlv, haud, hstate⟩, if_pos hkind]
    simp only [hdrop, hbt]
    simp [hdrop, hbt, appendParsedBuffers, hstate, h1, Nat.pos_iff_ne_zero.mp h1]


/-- C5 witness: a concrete PARSING state over fragment sn 5 (level
starts at sn 0): a dropped video parse backtracks to IDLE with no
append; the same event on the fragment already marked backtracked
leaves PARSING and appends. -/
theorem onFragParsingData_backtrack_policy_witness :
    (onFragParsingData
        ⟨ReceiverState.parsing, some ⟨5, 2, 10, 0, false, false, false⟩, false,
          some ⟨0⟩, 0, none, [5], false, false⟩
        ⟨true, 5, 2, ElementaryStreamKind.video, 40, some 50, 40, some 50,
          3, false, true, 7, 0⟩).1.state = ReceiverState.idle ∧
    (onFragParsingData
        ⟨ReceiverState.parsing, some ⟨5, 2, 10, 0, false, false, false⟩, false,
          some ⟨0⟩, 0, none, [5], false, false⟩
        ⟨true, 5, 2, ElementaryStreamKind.video, 40, some 50, 40, some 50,
          3, false, true, 7, 0⟩).2 = [] ∧
    (onFragParsingData
        ⟨ReceiverState.parsing, some ⟨5, 2, 10, 3, true, false, true⟩, false,
          some ⟨0⟩, 0, none, [5], false, false⟩
        ⟨true, 5, 2, ElementaryStreamKind.video, 40, some 50, 40, some 50,
          3, false, true, 7, 0⟩).2 ≠ [] := by
  have hA := onFragParsingData_backtrack_policy.1
    ⟨ReceiverState.parsing, some ⟨5, 2, 10, 0, false, false, false⟩, false,
      some ⟨0⟩, 0, none, [5], false, false⟩
    ⟨true, 5, 2, ElementaryStreamKind.video, 40, some 50, 40, some 50,
      3, false, true, 7, 0⟩
    ⟨5, 2, 10, 0, false, false, false⟩ rfl rfl rfl rfl rfl rfl (by decide) rfl (by decide)
  have hB := onFragParsingData_backtrack_policy.2
    ⟨ReceiverState.parsing, some ⟨5, 2, 10, 3, true, false, true⟩, false,
      some ⟨0⟩, 0, none, [5], false, false⟩
    ⟨true, 5, 2, ElementaryStreamKind.video, 40, some 50, 40, some 50,
      3, false, true, 7, 0⟩
    ⟨5, 2, 10, 3, true, false, true⟩ rfl rfl rfl rfl rfl rfl (by decide) rfl (by decide)
  exact ⟨hA.2.1, hA.1, hB.1⟩

/-- C5 counterexample: the same dropped, never-backtracked video parse
on the first fragment of the playlist (sn 5 = startSN 5) does not
backtrack: the machine stays in PARSING, issues the buffer-append, and
leaves the tracker, the backtracked flag and nextLoadPosition alone,
contradicting the claim as stated. -/
theorem onFragParsingData_first_fragment_appends_with_gap :
    (onFragParsingData
        ⟨ReceiverState.parsing, some ⟨5, 2, 10, 0, false, false, false⟩, false,
          some ⟨5⟩, 0, none, [5], false, false⟩
        ⟨true, 5, 2, ElementaryStreamKind.video, 40, some 50, 40, some 50,
          3, false, true, 7, 0⟩).2 = [⟨ElementaryStreamKind.video, 7⟩] ∧
    (onFragParsingData
        ⟨ReceiverState.parsing, some ⟨5, 2, 10, 0, false, false, false⟩, false,
          some ⟨5⟩, 0, none, [5], false, false⟩
        ⟨true, 5, 2, ElementaryStreamKind.video, 40, some 50, 40, some 50,
          3, false, true, 7, 0⟩).1.state = ReceiverState.parsing ∧
    (onFragParsingData
        ⟨ReceiverState.parsing, some ⟨5, 2, 10, 0, false, false, false⟩, false,
          some ⟨5⟩, 0, none, [5], false, false⟩
        ⟨true, 5, 2, ElementaryStreamKind.video, 40, some 50, 40, some 50,
          3, false, true, 7, 0⟩).1.fragCurrent = some ⟨5, 2, 10, 3, false, false, true⟩ ∧
    (onFragParsingData
        ⟨ReceiverState.parsing, some ⟨5, 2, 10, 0, false, false, false⟩, false,
          some ⟨5⟩, 0, none, [5], false, false⟩
        ⟨true, 5, 2, ElementaryStreamKind.video, 40, some 50, 40, some 50,
          3, false, true, 7, 0⟩).1.trackedSNs = [5] ∧
    (onFragParsingData
        ⟨ReceiverState.parsing, some ⟨5, 2, 10, 0, false, false, false⟩, false,
          some ⟨5⟩, 0, none, [5], false, false⟩
        ⟨true, 5, 2, ElementaryStreamKind.video, 40, some 50, 40, some 50,
          3, false, true, 7, 0⟩).1.nextLoadPosition = 0 :=
  ⟨rfl, rfl, rfl, rfl, rfl⟩


/-- C6: the key loader cache policy. A fragment whose uri matches the
cached uri with key bytes cached is served the cached bytes and
KEY_LOADED with no network activity; a differing uri or an empty cache
aborts any in-flight loader of the fragment lane and issues exactly one
fetch with engine maxRetry 0; and the load-success-load sequence for
two fragments sharing one uri issues exactly one fetch in total, the
second fragment receiving the cached bytes. -/
theorem keyLoader_cache_policy :
    (∀ (st : KeyLoaderState) (frag : KeyFragment) (bytes : List ℕ),
      st.keyUrl = frag.uri → st.keyData = some bytes →
      onKeyLoading st frag
        = (st, { frag with key := some bytes }, [KeyLoaderEvent.keyLoaded frag.sn])) ∧
    (∀ (st : KeyLoaderState) (frag : KeyFragment),
      frag.uri ≠ st.keyUrl ∨ st.keyData = none →
      (onKeyLoading st frag).2.2
        = (if st.loaders frag.variantType
            then [KeyLoaderEvent.abortLoader frag.variantType] else [])
          ++ [KeyLoaderEvent.fetchKey frag.uri 0] ∧
      countKeyFetches (onKeyLoading st frag).2.2 = 1) ∧
    (∀ (st0 : KeyLoaderState) (frag1 frag2 : KeyFragment) (bytes : List ℕ),
      frag1.uri = frag2.uri →
      frag1.uri ≠ st0.keyUrl ∨ st0.keyData = none →
      countKeyFetches ((onKeyLoading st0 frag1).2.2
          ++ (handleKeyLoadSuccess (onKeyLoading st0 frag1).1 frag1 bytes).2.2
          ++ (onKeyLoading
                (handleKeyLoadSuccess (onKeyLoading st0 frag1).1 frag1 bytes).1
                frag2).2.2) = 1 ∧
      (onKeyLoading
          (handleKeyLoadSuccess (onKeyLoading st0 frag1).1 frag1 bytes).1
          frag2).2.1.key = some bytes) := by
  refine ⟨?_, ?_, ?_⟩
  · intro st frag bytes hurl hkd
    rw [onKeyLoading, if_neg (by simp [hurl, hkd]), hkd]
  · intro st frag h
    rw [onKeyLoading, if_pos h]
    refine ⟨rfl, ?_⟩
    by_cases hl : st.loaders frag.variantType <;>
      simp [hl, countKeyFetches]
  · intro st0 frag1 frag2 bytes huri h0
    have hr1 : (onKeyLoading st0 frag1).1
        = ⟨none, frag1.uri,
            fun t => if t = frag1.variantType then true else st0.loaders t⟩ := by
      rw [onKeyLoading, if_pos h0]
    have hr1e : (onKeyLoading st0 frag1).2.2
        = (if st0.loaders frag1.variantType
            then [KeyLoaderEvent.abortLoader frag1.variantType] else [])
          ++ [KeyLoaderEvent.fetchKey frag1.uri 0] := by
      rw [onKeyLoading, if_pos h0]
    have hr2 : (handleKeyLoadSuccess (onKeyLoading st0 frag1).1 frag1 bytes).1
        = ⟨some bytes, frag1.uri,
            fun t => if t = frag1.variantType then false
              else if t = frag1.variantType then true else st0.loaders t⟩ := by
      rw [hr1]
      rfl
    have hr2e : (handleKeyLoadSuccess (onKeyLoading st0 frag1).1 frag1 bytes).2.2
        = [KeyLoaderEvent.keyLoaded frag1.sn] := rfl
    have hr3 : onKeyLoading
        (handleKeyLoadSuccess (onKeyLoading st0 frag1).1 frag1 bytes).1 frag2
        = ((handleKeyLoadSuccess (onKeyLoading st0 frag1).1 frag1 bytes).1,
            { frag2 with key := some bytes },
            [KeyLoaderEvent.keyLoaded frag2.sn]) := by
      rw [hr2, onKeyLoading, if_neg (by simp [huri])]
    rw [hr1e, hr2e, hr3]
    refine ⟨?_, rfl⟩
    by_cases hl : st0.loaders frag1.variantType <;>
      simp [hl, countKeyFetches]


/-- C6 witness: an empty cache, two main-lane fragments with uri 7 and
a key load success in between: one fetch in total and the second
fragment is served the cached bytes. -/
theorem keyLoader_cache_policy_witness :
    countKeyFetches ((onKeyLoading ⟨none, none, fun _ => false⟩
          ⟨MediaVariantType.main, 1, some 7, none⟩).2.2
        ++ (handleKeyLoadSuccess (onKeyLoading ⟨none, none, fun _ => false⟩
              ⟨MediaVariantType.main, 1, some 7, none⟩).1
            ⟨MediaVariantType.main, 1, some 7, none⟩ [1, 2, 3]).2.2
        ++ (onKeyLoading
              (handleKeyLoadSuccess (onKeyLoading ⟨none, none, fun _ => false⟩
                  ⟨MediaVariantType.main, 1, some 7, none⟩).1
                ⟨MediaVariantType.main, 1, some 7, none⟩ [1, 2, 3]).1
              ⟨MediaVariantType.main, 2, some 7, none⟩).2.2) = 1 ∧
    (onKeyLoading
        (handleKeyLoadSuccess (onKeyLoading ⟨none, none, fun _ => false⟩
            ⟨MediaVariantType.main, 1, some 7, none⟩).1
          ⟨MediaVariantType.main, 1, some 7, none⟩ [1, 2, 3]).1
        ⟨MediaVariantType.main, 2, some 7, none⟩).2.1.key = some [1, 2, 3] :=
  keyLoader_cache_policy.2.2 ⟨none, none, fun _ => false⟩
    ⟨MediaVariantType.main, 1, some 7, none⟩ ⟨MediaVariantType.main, 2, some 7, none⟩
    [1, 2, 3] rfl (Or.inr rfl)

/-- C7 (amended): manifest loads use the manifest retry budget and
manifest network failures are fatal; variant-level loads have the
engine retry disabled (maxRetry 0); audio-track and subtitle-track
loads use the level retry budget (retry is not disabled at this layer
for tracks, contrary to the original claim); level and track network
failures are non-fatal. The load entry point hands exactly these
options to the started engine. -/
theorem playlistLoader_context_policy (config : PlaylistRetryConfig) :
    (selectLoaderOptions config PlaylistContextType.manifest).maxRetry
      = config.manifestLoadingMaxRetry ∧
    networkErrorFatal PlaylistContextType.manifest = true ∧
    (selectLoaderOptions config PlaylistContextType.level).maxRetry = 0 ∧
    networkErrorFatal PlaylistContextType.level = false ∧
    (selectLoaderOptions config PlaylistContextType.audioTrack).maxRetry
      = config.levelLoadingMaxRetry ∧
    (selectLoaderOptions config PlaylistContextType.subtitleTrack).maxRetry
      = config.levelLoadingMaxRetry ∧
    networkErrorFatal PlaylistContextType.audioTrack = false ∧
    networkErrorFatal PlaylistContextType.subtitleTrack = false ∧
    (∀ (loaders : PlaylistContextType → Option ℕ) (url : ℕ) (t : PlaylistContextType),
      loaders t = none →
      (playlistLoad config loaders url t).2.2
        = [PlaylistLoaderAction.startLoad t url (selectLoaderOptions config t)]) := by
  refine ⟨rfl, rfl, rfl, rfl, rfl, rfl, rfl, rfl, ?_⟩
  intro loaders url t h
  simp only [playlistLoad, h]

/-- C7 witness: a concrete configuration (manifest budget 1, level
budget 4): the manifest load starts with maxRetry 1, a level load with
maxRetry 0, and an idle audio-track load starts with the level budget
options. -/
theorem playlistLoader_context_policy_witness :
    (selectLoaderOptions ⟨1, 10, 1000, 64000, 4, 10, 1000, 64000⟩
      PlaylistContextType.manifest).maxRetry = 1 ∧
    (selectLoaderOptions ⟨1, 10, 1000, 64000, 4, 10, 1000, 64000⟩
      PlaylistContextType.level).maxRetry = 0 ∧
    (playlistLoad ⟨1, 10, 1000, 64000, 4, 10, 1000, 64000⟩ (fun _ => none) 42
        PlaylistContextType.audioTrack).2.2
      = [PlaylistLoaderAction.startLoad PlaylistContextType.audioTrack 42
          ⟨4, 10, some 1000, some 64000⟩] := by
  have h := playlistLoader_context_policy ⟨1, 10, 1000, 64000, 4, 10, 1000, 64000⟩
  exact ⟨h.1, h.2.2.1, h.2.2.2.2.2.2.2.2 (fun _ => none) 42 PlaylistContextType.audioTrack rfl⟩

/-- C7 counterexample: with levelLoadingMaxRetry 4, an audio-track
playlist load is configured with engine maxRetry 4, not 0, so retry is
not disabled at this layer for alternate tracks. -/
theorem playlistLoader_track_retry_enabled :
    (selectLoaderOptions ⟨1, 10, 1000, 64000, 4, 10, 1000, 64000⟩
      PlaylistContextType.audioTrack).maxRetry = 4 ∧
    (selectLoaderOptions ⟨1, 10, 1000, 64000, 4, 10, 1000, 64000⟩
      PlaylistContextType.audioTrack).maxRetry ≠ 0 := by
  exact ⟨rfl, by decide⟩

/-- C8: at most one playlist request per context type: a load for the
url already active on the context type is a no-op returning false; a
load for a different url aborts the previous loader before starting
the new one; and NetworkEngine._execRequest on an engine whose request
is still in flight throws instead of retrying. -/
theorem playlistLoader_single_flight (config : PlaylistRetryConfig) :
    (∀ (loaders : PlaylistContextType → Option ℕ) (url : ℕ) (t : PlaylistContextType),
      loaders t = some url → playlistLoad config loaders url t = (false, loaders, [])) ∧
    (∀ (loaders : PlaylistContextType → Option ℕ) (url u : ℕ) (t : PlaylistContextType),
      loaders t = some u → u ≠ url →
      (playlistLoad config loaders url t).1 = true ∧
      (playlistLoad config loaders url t).2.2
        = [PlaylistLoaderAction.abortPrevious t,
           PlaylistLoaderAction.startLoad t url (selectLoaderOptions config t)]) ∧
    execRequest true = Except.error () ∧ execRequest false = Except.ok true := by
  refine ⟨?_, ?_, rfl, rfl⟩
  · intro loaders url t h
    simp [playlistLoad, h]
  · intro loaders url u t h hne
    simp [playlistLoad, h, hne]

/-- C8 witness: with url 9 active on the level context, reloading url 9
is a no-op and loading url 10 aborts then restarts; a busy engine
throws. -/
theorem playlistLoader_single_flight_witness :
    playlistLoad ⟨1, 10, 1000, 64000, 4, 10, 1000, 64000⟩
        (fun t => if t = PlaylistContextType.level then some 9 else none) 9
        PlaylistContextType.level
      = (false, fun t => if t = PlaylistContextType.level then some 9 else none, []) ∧
    (playlistLoad ⟨1, 10, 1000, 64000, 4, 10, 1000, 64000⟩
        (fun t => if t = PlaylistContextType.level then some 9 else none) 10
        PlaylistContextType.level).2.2
      = [PlaylistLoaderAction.abortPrevious PlaylistContextType.level,
         PlaylistLoaderAction.startLoad PlaylistContextType.level 10
          ⟨0, 10, none, none⟩] ∧
    execRequest true = Except.error () := by
  have h := playlistLoader_single_flight ⟨1, 10, 1000, 64000, 4, 10, 1000, 64000⟩
  exact ⟨h.1 _ 9 PlaylistContextType.level rfl,
    (h.2.1 _ 10 9 PlaylistContextType.level rfl (by decide)).2, h.2.2.1⟩


/-- C9: for a playlist key with a method and a uri but no explicit iv,
the derived decrypt data carries a 16-byte initialization vector whose
first 12 bytes are zero and whose last 4 bytes hold the sequence
number in big-endian order (for sequence numbers below 2 ^ 32, the
range where the JS 32-bit shift agrees with the natural-number
computation). -/
theorem derived_iv_big_endian (lk : LevelKey) (sn : ℕ)
    (hm : lk.method.isSome = true) (hu : lk.uri.isSome = true)
    (hiv : lk.iv = none) (hsn : sn < 2 ^ 32) :
    createDecryptDataFromLevelkey (some lk) sn
      = some ⟨lk.method, none, some (createInitializationVector sn), lk.uri⟩ ∧
    (createInitializationVector sn).length = 16 ∧
    (createInitializationVector sn).take 12 = List.replicate 12 0 ∧
    (createInitializationVector sn).drop 12
      = [sn / 2 ^ 24 % 256, sn / 2 ^ 16 % 256, sn / 2 ^ 8 % 256, sn % 256] ∧
    (sn / 2 ^ 24 % 256) * 2 ^ 24 + (sn / 2 ^ 16 % 256) * 2 ^ 16
      + (sn / 2 ^ 8 % 256) * 2 ^ 8 + sn % 256 = sn := by
  refine ⟨?_, rfl, rfl, ?_, ?_⟩
  · simp only [createDecryptDataFromLevelkey]
    rw [if_pos ⟨hm, hu, hiv⟩]
  · have h : (createInitializationVector sn).drop 12
        = [sn >>> 24 % 256, sn >>> 16 % 256, sn >>> 8 % 256, sn >>> 0 % 256] := rfl
    rw [h]
    simp [Nat.shiftRight_eq_div_pow]
  · omega

/-- C9 witness: sequence number 16909060 (bytes 01 02 03 04) on a key
with method 1 and uri 2 and no explicit iv: the derived iv ends in
1, 2, 3, 4 and starts with 12 zero bytes. -/
theorem derived_iv_big_endian_witness :
    (createInitializationVector 16909060).take 12 = List.replicate 12 0 ∧
    (createInitializationVector 16909060).drop 12 = [1, 2, 3, 4] ∧
    createDecryptDataFromLevelkey (some ⟨some 1, none, none, some 2⟩) 16909060
      = some ⟨some 1, none, some (createInitializationVector 16909060), some 2⟩ := by
  have h := derived_iv_big_endian ⟨some 1, none, none, some 2⟩ 16909060
    rfl rfl rfl (by norm_num)
  refine ⟨h.2.2.1, ?_, h.1⟩
  rw [h.2.2.2.1]
  norm_num

/-- C10: the encrypted getter is true exactly when the fragment
decrypt data exists with a non-null uri and still-null key bytes; and
attaching key bytes (as the key loader success path does) makes the
same fragment report encrypted = false. -/
theorem fragmentEncrypted_iff :
    (∀ f : MediaFragmentKeyView,
      fragmentEncrypted f = true ↔
        ∃ d, decryptdataOf f = some d ∧ d.uri.isSome = true ∧ d.key = none) ∧
    (∀ (f : MediaFragmentKeyView) (bytes : List ℕ) (d : LevelKey),
      decryptdataOf f = some d →
      fragmentEncrypted (attachKeyBytes f bytes) = false) := by
  constructor
  · intro f
    cases hd : decryptdataOf f with
    | none => simp [fragmentEncrypted, hd]
    | some d =>
      simp [fragmentEncrypted, hd, Bool.and_eq_true, Option.isNone_iff_eq_none]
  · intro f bytes d hd
    have h1 : attachKeyBytes f bytes
        = { f with decryptdataCache := some { d with key := some bytes } } := by
      simp only [attachKeyBytes, hd]
    rw [h1]
    simp [fragmentEncrypted, decryptdataOf]

/-- C10 witness: a fragment over a playlist key with method 1 and uri 2
reports encrypted = true while its derived key bytes are null, and
encrypted = false right after key bytes are attached. -/
theorem fragmentEncrypted_iff_witness :
    fragmentEncrypted ⟨3, some ⟨some 1, none, none, some 2⟩, none⟩ = true ∧
    fragmentEncrypted (attachKeyBytes ⟨3, some ⟨some 1, none, none, some 2⟩, none⟩ [9]) = false := by
  constructor
  · exact (fragmentEncrypted_iff.1 ⟨3, some ⟨some 1, none, none, some 2⟩, none⟩).mpr
      ⟨⟨some 1, none, some (createInitializationVector 3), some 2⟩, rfl, rfl, rfl⟩
  · exact fragmentEncrypted_iff.2 ⟨3, some ⟨some 1, none, none, some 2⟩, none⟩ [9]
      ⟨some 1, none, some (createInitializationVector 3), some 2⟩ rfl

end HlsSpec
